import Mathlib

/-!
Shallow embedding of the memory-puzzle game core of this repository
(`project.py`): the `Card` and `Game` data model, the selection state
machine (`handle_click`), the tick driver (`update`, `flip_back_cards`,
`update_animation`), victory detection (`check_victory`), the save/load
codec (`save_game`, `load_game`), and deck construction
(`initialize_cards`).

Python object references held in `first_selection` / `second_selection`
are modelled as indices into the `cards` list (`Option Nat`); object
identity (`card != self.first_selection`) becomes index inequality. The
`random.shuffle` of the paired deck is modelled by quantifying over an
arbitrary permutation of `CARD_VALUES * 2`. `values.pop()` removes the
last element of the shuffled list, which the embedding reproduces via
`List.getLast?` / `List.dropLast`. The JSON save record is modelled with
`Option`-valued fields so that a missing required key (Python `KeyError`,
caught and turned into a `False` return) is representable.
-/

/-! ### Constants from the source -/

def WINDOW_WIDTH : Int := 640
def WINDOW_HEIGHT : Int := 480
def FPS : Nat := 30
def CARD_SIZE : Int := 100
def CARD_SPACING : Int := 10
def GRID_SIZE : Nat := 4
def ANIMATION_SPEED : Int := 8

def CARD_VALUES : List String := ["1", "2", "3", "4", "5", "6", "7", "8"]

/-! ### Card -/

structure Card where
  x : Int
  y : Int
  value : String
  is_flipped : Bool
  is_matched : Bool
  flip_progress : Int
deriving DecidableEq

/-- `Card.__init__`: a fresh card is face down, unmatched, with
`flip_progress = 0`. -/
def Card.mk0 (x y : Int) (value : String) : Card :=
  { x := x, y := y, value := value, is_flipped := false, is_matched := false,
    flip_progress := 0 }

/-- `card.rect.collidepoint(pos)`: the rect is `Rect(x, y, CARD_SIZE,
CARD_SIZE)`; pygame includes the top/left edge and excludes the
bottom/right edge. -/
def Card.collidepoint (c : Card) (px py : Int) : Bool :=
  decide (c.x ≤ px) && decide (px < c.x + CARD_SIZE) &&
  decide (c.y ≤ py) && decide (py < c.y + CARD_SIZE)

/-- `Card.flip`: toggle `is_flipped`. -/
def Card.flip (c : Card) : Card :=
  { c with is_flipped := !c.is_flipped }

/-- `Card.update_animation`: move `flip_progress` one `ANIMATION_SPEED`
step toward `CARD_SIZE` when the card is flipped or matched, toward `0`
otherwise, clamping at the target. -/
def Card.update_animation (c : Card) : Card :=
  if c.is_flipped || c.is_matched then
    if c.flip_progress < CARD_SIZE then
      let fp := c.flip_progress + ANIMATION_SPEED
      { c with flip_progress := if CARD_SIZE < fp then CARD_SIZE else fp }
    else c
  else
    if 0 < c.flip_progress then
      let fp := c.flip_progress - ANIMATION_SPEED
      { c with flip_progress := if fp < 0 then 0 else fp }
    else c

/-! ### Deck construction -/

def start_x : Int :=
  (WINDOW_WIDTH - ((GRID_SIZE : Int) * CARD_SIZE + ((GRID_SIZE : Int) - 1) * CARD_SPACING)) / 2

def start_y : Int :=
  (WINDOW_HEIGHT - ((GRID_SIZE : Int) * CARD_SIZE + ((GRID_SIZE : Int) - 1) * CARD_SPACING)) / 2

/-- The 16 card origins produced by the row-major double loop in
`initialize_cards`. -/
def gridPositions : List (Int × Int) :=
  ((List.range GRID_SIZE).map fun row =>
    (List.range GRID_SIZE).map fun col =>
      (start_x + (col : Int) * (CARD_SIZE + CARD_SPACING),
       start_y + (row : Int) * (CARD_SIZE + CARD_SPACING))).flatten

/-- The card-creation loop of `initialize_cards`: for each grid position in
order, `values.pop()` takes the LAST element of the shuffled value list;
popping an empty list fails (Python `IndexError`). -/
def buildCards : List (Int × Int) → List String → Option (List Card)
  | [], _ => some []
  | p :: ps, values =>
    match values.getLast? with
    | none => none
    | some v =>
      match buildCards ps values.dropLast with
      | none => none
      | some cs => some (Card.mk0 p.1 p.2 v :: cs)

/-- `Game.initialize_cards`, with the shuffled deck `vs` (the result of
`random.shuffle(CARD_VALUES * 2)`) passed explicitly. -/
def initialize_cards (vs : List String) : Option (List Card) :=
  buildCards gridPositions vs

/-! ### Game -/

structure Game where
  cards : List Card
  first_selection : Option Nat
  second_selection : Option Nat
  moves : Nat
  victory : Bool
  wait_time : Nat
deriving DecidableEq

/-- `Game.__init__` for a given shuffle outcome `vs`. -/
def Game.mkFresh (vs : List String) : Option Game :=
  (initialize_cards vs).map fun cs =>
    { cards := cs, first_selection := none, second_selection := none,
      moves := 0, victory := false, wait_time := 0 }

/-- Replace the card at index `i` (no-op when out of range); this models
mutating, through a selection reference, a card object owned by
`self.cards`. -/
def modifyAt (f : Card → Card) : List Card → Nat → List Card
  | [], _ => []
  | c :: cs, 0 => f c :: cs
  | c :: cs, n + 1 => c :: modifyAt f cs n

def valueAt (cs : List Card) (k : Nat) : Option String :=
  (cs.get? k).map (·.value)

def matchedAt (cs : List Card) (k : Nat) : Bool :=
  match cs.get? k with
  | some c => c.is_matched
  | none => false

def setMatched (cs : List Card) (k : Nat) : List Card :=
  modifyAt (fun c => { c with is_matched := true }) cs k

/-- The per-card test of the `for card in self.cards` loop in
`handle_click`: hit by the click and currently face down and unmatched. -/
def eligible (px py : Int) (c : Card) : Bool :=
  c.collidepoint px py && !c.is_flipped && !c.is_matched

/-- Index of the first card the `handle_click` loop acts on (the loop
`break`s at the first card passing `eligible`). -/
def findEligible (px py : Int) : List Card → Option Nat
  | [] => none
  | c :: cs =>
    if eligible px py c then some 0 else (findEligible px py cs).map (· + 1)

/-- `Game.reset_selection`. -/
def Game.reset_selection (g : Game) : Game :=
  { g with first_selection := none, second_selection := none }

/-- `Game.check_victory`: set `victory` when every card is matched,
otherwise leave the game unchanged. -/
def Game.check_victory (g : Game) : Game :=
  if g.cards.all (·.is_matched) then { g with victory := true } else g

/-- `Game.handle_click`. -/
def Game.handle_click (g : Game) (px py : Int) : Game :=
  if 0 < g.wait_time || g.victory then g
  else
    match findEligible px py g.cards with
    | none => g
    | some i =>
      match g.first_selection, g.second_selection with
      | none, _ =>
        { g with first_selection := some i,
                 cards := modifyAt Card.flip g.cards i }
      | some j, none =>
        if i = j then g
        else
          let cs := modifyAt Card.flip g.cards i
          if valueAt cs j = valueAt cs i then
            Game.reset_selection (Game.check_victory
              { g with cards := setMatched (setMatched cs j) i,
                       second_selection := some i, moves := g.moves + 1 })
          else
            { g with cards := cs, second_selection := some i,
                     moves := g.moves + 1, wait_time := FPS }
      | some _, some _ => g

/-- `Game.flip_back_cards`: when both selections are set, flip each one
back unless it is matched, then clear the selections. -/
def Game.flip_back_cards (g : Game) : Game :=
  match g.first_selection, g.second_selection with
  | some j, some i =>
    let cs1 := if matchedAt g.cards j then g.cards else modifyAt Card.flip g.cards j
    let cs2 := if matchedAt cs1 i then cs1 else modifyAt Card.flip cs1 i
    { g with cards := cs2, first_selection := none, second_selection := none }
  | _, _ => g

/-- `Game.update`: animate every card, then run the pending-hide
countdown, flipping the mismatched pair back when it reaches zero. -/
def Game.update (g : Game) : Game :=
  if 0 < g.wait_time then
    if g.wait_time - 1 = 0 then
      Game.flip_back_cards
        { g with cards := g.cards.map Card.update_animation,
                 wait_time := g.wait_time - 1 }
    else
      { g with cards := g.cards.map Card.update_animation,
               wait_time := g.wait_time - 1 }
  else { g with cards := g.cards.map Card.update_animation }

/-! ### Persistence codec -/

/-- One entry of the `cards` array of the JSON save record; `Option`
fields model possibly-missing keys. -/
structure CardData where
  x : Option Int
  y : Option Int
  value : Option String
  is_flipped : Option Bool
  is_matched : Option Bool
deriving DecidableEq

/-- The JSON save record written by `save_game` / read by `load_game`. -/
structure SaveData where
  moves : Option Nat
  victory : Option Bool
  cards : Option (List CardData)
deriving DecidableEq

/-- `Game.save_game` (minus the file write): serialize every field the
source writes, in card order. -/
def Game.save_game (g : Game) : SaveData :=
  { moves := some g.moves, victory := some g.victory,
    cards := some (g.cards.map fun c =>
      { x := some c.x, y := some c.y, value := some c.value,
        is_flipped := some c.is_flipped, is_matched := some c.is_matched }) }

/-- Rebuild one card in the `load_game` loop: a missing key raises
`KeyError` (modelled as `none`); a flipped or matched card resumes at
`flip_progress = CARD_SIZE`, a hidden one at 0 (from `Card.__init__`). -/
def loadCard (cd : CardData) : Option Card :=
  match cd.x, cd.y, cd.value, cd.is_flipped, cd.is_matched with
  | some x, some y, some v, some fl, some m =>
    some { x := x, y := y, value := v, is_flipped := fl, is_matched := m,
           flip_progress := if fl || m then CARD_SIZE else 0 }
  | _, _, _, _, _ => none

def loadCards : List CardData → Option (List Card)
  | [] => some []
  | cd :: cds =>
    match loadCard cd, loadCards cds with
    | some c, some cs => some (c :: cs)
    | _, _ => none

/-- `Game.load_game` (minus the file read): any missing required field
fails (the caught exception makes `load_game` return `False`); on success
every field of the game is overwritten and the selections and the
pending-hide countdown are reset. -/
def load_game (sd : SaveData) : Option Game :=
  match sd.moves, sd.victory, sd.cards with
  | some m, some v, some cds =>
    match loadCards cds with
    | some cs =>
      some { cards := cs, first_selection := none, second_selection := none,
             moves := m, victory := v, wait_time := 0 }
    | none => none
  | _, _, _ => none

/-- `hasAllFields sd` holds exactly when every required key of the save
record is present. -/
def hasAllFields (sd : SaveData) : Bool :=
  sd.moves.isSome && sd.victory.isSome &&
    match sd.cards with
    | none => false
    | some cds => cds.all fun cd =>
        cd.x.isSome && cd.y.isSome && cd.value.isSome &&
        cd.is_flipped.isSome && cd.is_matched.isSome

/-! ### Event traces and reachability -/

inductive Ev where
  | click (px py : Int)
  | tick
deriving DecidableEq

def Game.step (g : Game) : Ev → Game
  | .click px py => g.handle_click px py
  | .tick => g.update

def Game.run (g : Game) : List Ev → Game
  | [] => g
  | e :: es => (g.step e).run es

def runTicks : Nat → Game → Game
  | 0, g => g
  | n + 1, g => runTicks n g.update

/-- Sessions reachable from a fresh game (any shuffle of the paired deck)
by clicks and ticks. -/
inductive Reachable : Game → Prop
  | fresh (vs : List String) (g : Game) :
      vs.Perm (CARD_VALUES ++ CARD_VALUES) → Game.mkFresh vs = some g →
      Reachable g
  | click (g : Game) (px py : Int) : Reachable g → Reachable (g.handle_click px py)
  | tick (g : Game) : Reachable g → Reachable g.update

/-! ### Derived observations used by the claims -/

/-- A card that is face up (`Revealed`) but not matched. -/
def fu (c : Card) : Bool := c.is_flipped && !c.is_matched

/-- The position/symbol/visibility part of a card (what the spec calls the
tile's observable state, without the animation progress). -/
def cardFlags (c : Card) : Int × Int × String × Bool × Bool :=
  (c.x, c.y, c.value, c.is_flipped, c.is_matched)

/-- The card at index `k` exists and has the given flipped/matched flags. -/
def flaggedAt (cs : List Card) (k : Nat) (fl m : Bool) : Prop :=
  ∃ c, cs.get? k = some c ∧ c.is_flipped = fl ∧ c.is_matched = m

/-- A click that completes a two-tile comparison: the game is accepting
input, a first pick is held, no second pick is held, and the click lands
on an eligible card other than the first pick. -/
def completesPair (g : Game) (px py : Int) : Bool :=
  decide (g.wait_time = 0) && !g.victory &&
    match g.first_selection, g.second_selection, findEligible px py g.cards with
    | some j, none, some i => decide (i ≠ j)
    | _, _, _ => false

/-- Number of clicks in the trace that complete a two-tile comparison,
evaluated against the evolving state. -/
def countPairs : Game → List Ev → Nat
  | _, [] => 0
  | g, Ev.click px py :: es =>
    (if completesPair g px py then 1 else 0) + countPairs (g.step (Ev.click px py)) es
  | g, Ev.tick :: es => countPairs g.update es

/-- The state-machine invariant of the selection controller: the shape of
the two selection slots pins down the pending-hide countdown and which
cards may be face-up-but-unmatched. -/
def SelInv (g : Game) : Prop :=
  match g.first_selection, g.second_selection with
  | none, none =>
    g.wait_time = 0 ∧ ∀ c ∈ g.cards, fu c = false
  | some j, none =>
    g.wait_time = 0 ∧ flaggedAt g.cards j true false ∧
      ∀ k c, g.cards.get? k = some c → fu c = true → k = j
  | some j, some i =>
    j ≠ i ∧ flaggedAt g.cards j true false ∧ flaggedAt g.cards i true false ∧
      0 < g.wait_time ∧
      ∀ k c, g.cards.get? k = some c → fu c = true → k = j ∨ k = i
  | none, some _ => False

def allMatched (cs : List Card) : Prop := ∀ c ∈ cs, c.is_matched = true

/-- Full inductive invariant: selection-machine shape plus the victory
flag tracking "all cards matched". -/
def GameInv (g : Game) : Prop :=
  SelInv g ∧ (g.victory = true ↔ allMatched g.cards)

/-- A face-up-but-unmatched card at index `i` that neither selection slot
points to: exactly the situation `load_game` produces when the record
carries a Revealed, unmatched tile. -/
def StuckP (g : Game) (i : Nat) : Prop :=
  (∃ c, g.cards.get? i = some c ∧ c.is_flipped = true ∧ c.is_matched = false) ∧
  g.first_selection ≠ some i ∧ g.second_selection ≠ some i

/-- The value `update_animation` steers `flip_progress` toward: the full
card width for a flipped or matched card, `0` for a hidden one. -/
def animTarget (c : Card) : Int :=
  if c.is_flipped || c.is_matched then CARD_SIZE else 0

/-! ### Concrete instances used as witnesses -/

def gFallback : Game :=
  { cards := [], first_selection := none, second_selection := none,
    moves := 0, victory := false, wait_time := 0 }

/-- The fresh game obtained from the identity shuffle. -/
def gEx : Game := (Game.mkFresh (CARD_VALUES ++ CARD_VALUES)).getD gFallback

/-- A well-formed save record of a game with one face-up unmatched card. -/
def sdEx : SaveData :=
  { moves := some 3, victory := some false,
    cards := some
      [ { x := some 105, y := some 25, value := some "1",
          is_flipped := some true, is_matched := some false },
        { x := some 215, y := some 25, value := some "1",
          is_flipped := some false, is_matched := some false } ] }

def gLoadedEx : Game := (load_game sdEx).getD gFallback

/-- A save record whose symbol "1" appears on exactly one tile, with every
required field present. -/
def badCountRecord : SaveData :=
  { moves := some 0, victory := some false,
    cards := some
      [ { x := some 105, y := some 25, value := some "1",
          is_flipped := some false, is_matched := some false } ] }

/-- A paired deck over nine symbols (a configuration the spec says must be
rejected: 16 tiles ≠ 2 * 9 symbols). -/
def NINE_VALUES : List String := ["1", "2", "3", "4", "5", "6", "7", "8", "9"]

/-! ## Basic lemmas about the list helpers -/

theorem modifyAt_length (f : Card → Card) (l : List Card) (i : Nat) :
    (modifyAt f l i).length = l.length := by
  induction l generalizing i with
  | nil => cases i <;> rfl
  | cons c cs ih => cases i with
    | zero => rfl
    | succ n => simpa [modifyAt] using ih n

theorem get?_modifyAt_self (f : Card → Card) (l : List Card) (i : Nat) :
    (modifyAt f l i).get? i = (l.get? i).map f := by
  induction l generalizing i with
  | nil => cases i <;> rfl
  | cons c cs ih => cases i with
    | zero => rfl
    | succ n => simpa [modifyAt] using ih n

theorem get?_modifyAt_ne (f : Card → Card) (l : List Card) {i k : Nat}
    (h : k ≠ i) : (modifyAt f l i).get? k = l.get? k := by
  induction l generalizing i k with
  | nil => cases i <;> rfl
  | cons c cs ih =>
    cases i with
    | zero => cases k with
      | zero => exact absurd rfl h
      | succ m => rfl
    | succ n => cases k with
      | zero => rfl
      | succ m =>
        simpa [modifyAt] using ih (by omega)

theorem findEligible_some {px py : Int} {cs : List Card} {i : Nat}
    (h : findEligible px py cs = some i) :
    ∃ c, cs.get? i = some c ∧ eligible px py c = true := by
  induction cs generalizing i with
  | nil => simp [findEligible] at h
  | cons c cs ih =>
    by_cases hc : eligible px py c = true
    · simp [findEligible, hc] at h
      subst h
      exact ⟨c, rfl, hc⟩
    · simp [findEligible, hc] at h
      obtain ⟨j, hj, rfl⟩ := h
      obtain ⟨c', hc', he⟩ := ih hj
      exact ⟨c', hc', he⟩

theorem findEligible_eq_none {px py : Int} {cs : List Card}
    (h : ∀ c ∈ cs, c.collidepoint px py = true →
      c.is_flipped = true ∨ c.is_matched = true) :
    findEligible px py cs = none := by
  induction cs with
  | nil => rfl
  | cons c cs ih =>
    have hc : eligible px py c = false := by
      by_cases hcp : c.collidepoint px py = true
      · rcases h c (List.mem_cons_self c cs) hcp with hf | hm
        · simp [eligible, hf]
        · simp [eligible, hm]
      · simp [eligible, Bool.eq_false_iff.mpr hcp]
    simp [findEligible, hc,
      ih fun c' hc' => h c' (List.mem_cons_of_mem c hc')]

/-! ## Claim C8 -/

/-- Claim C8: each `update_animation` call keeps `flip_progress` within
`[0, CARD_SIZE]`, moves it one `ANIMATION_SPEED` step toward the target
(`CARD_SIZE` when the card is Revealed or Matched, `0` when Hidden)
without ever passing the target, and leaves a card that is already at its
target completely unchanged. -/
theorem c8_update_animation (c : Card) (h0 : 0 ≤ c.flip_progress)
    (h1 : c.flip_progress ≤ CARD_SIZE) :
    0 ≤ c.update_animation.flip_progress ∧
    c.update_animation.flip_progress ≤ CARD_SIZE ∧
    (c.flip_progress < animTarget c →
      c.flip_progress < c.update_animation.flip_progress ∧
      c.update_animation.flip_progress
        = min (c.flip_progress + ANIMATION_SPEED) (animTarget c)) ∧
    (animTarget c < c.flip_progress →
      c.update_animation.flip_progress < c.flip_progress ∧
      c.update_animation.flip_progress
        = max (c.flip_progress - ANIMATION_SPEED) (animTarget c)) ∧
    (c.flip_progress = animTarget c → c.update_animation = c) := by
  by_cases hf : (c.is_flipped || c.is_matched) = true <;>
    simp only [Card.update_animation, animTarget, hf, if_true, if_false,
      Bool.not_eq_true] at * <;>
    split_ifs <;>
    refine ⟨?_, ?_, fun hlt => ⟨?_, ?_⟩, fun hgt => ⟨?_, ?_⟩, fun heq => ?_⟩ <;>
    simp_all [CARD_SIZE, ANIMATION_SPEED, min_def, max_def] <;>
    omega

/-- Witness for C8 at a concrete flipped card with `flip_progress = 0`. -/
theorem c8_update_animation_witness :
    (0 : Int) ≤ (Card.mk 105 25 "1" true false 0).update_animation.flip_progress ∧
    (Card.mk 105 25 "1" true false 0).update_animation.flip_progress ≤ CARD_SIZE ∧
    ((Card.mk 105 25 "1" true false 0).flip_progress
        < animTarget (Card.mk 105 25 "1" true false 0) →
      (Card.mk 105 25 "1" true false 0).flip_progress
          < (Card.mk 105 25 "1" true false 0).update_animation.flip_progress ∧
      (Card.mk 105 25 "1" true false 0).update_animation.flip_progress
        = min ((Card.mk 105 25 "1" true false 0).flip_progress + ANIMATION_SPEED)
            (animTarget (Card.mk 105 25 "1" true false 0))) ∧
    (animTarget (Card.mk 105 25 "1" true false 0)
        < (Card.mk 105 25 "1" true false 0).flip_progress →
      (Card.mk 105 25 "1" true false 0).update_animation.flip_progress
          < (Card.mk 105 25 "1" true false 0).flip_progress ∧
      (Card.mk 105 25 "1" true false 0).update_animation.flip_progress
        = max ((Card.mk 105 25 "1" true false 0).flip_progress - ANIMATION_SPEED)
            (animTarget (Card.mk 105 25 "1" true false 0))) ∧
    ((Card.mk 105 25 "1" true false 0).flip_progress
        = animTarget (Card.mk 105 25 "1" true false 0) →
      (Card.mk 105 25 "1" true false 0).update_animation
        = Card.mk 105 25 "1" true false 0) :=
  c8_update_animation (Card.mk 105 25 "1" true false 0) (by decide) (by decide)

/-! ## Persistence codec lemmas, claims C2 and C4 -/

theorem loadCard_isSome (cd : CardData) :
    (loadCard cd).isSome
      = (cd.x.isSome && cd.y.isSome && cd.value.isSome &&
         cd.is_flipped.isSome && cd.is_matched.isSome) := by
  rcases cd with ⟨x, y, v, fl, m⟩
  cases x <;> cases y <;> cases v <;> cases fl <;> cases m <;> rfl

theorem loadCards_isSome (cds : List CardData) :
    (loadCards cds).isSome = cds.all fun cd =>
      cd.x.isSome && cd.y.isSome && cd.value.isSome &&
      cd.is_flipped.isSome && cd.is_matched.isSome := by
  induction cds with
  | nil => rfl
  | cons cd cds ih =>
    have h := loadCard_isSome cd
    cases h1 : loadCard cd <;> rw [h1] at h <;>
      cases h2 : loadCards cds <;> rw [h2] at ih <;>
      simp [loadCards, h1, h2, List.all_cons, ← h, ← ih]

theorem loadCards_save (cs : List Card) :
    loadCards (cs.map fun c =>
      { x := some c.x, y := some c.y, value := some c.value,
        is_flipped := some c.is_flipped, is_matched := some c.is_matched })
      = some (cs.map fun c =>
          { c with flip_progress :=
              if c.is_flipped || c.is_matched then CARD_SIZE else 0 }) := by
  induction cs with
  | nil => rfl
  | cons c cs ih => simp [loadCards, loadCard, ih]

/-- Claim C2: deserializing the record produced by serializing any session
succeeds and yields a session with the same tile positions, symbols and
visibility flags in the same order, the same `moves` and `victory`, and
with both selections cleared and `wait_time` reset to 0. -/
theorem c2_round_trip (g : Game) :
    ∃ g', load_game g.save_game = some g' ∧
      g'.cards.map cardFlags = g.cards.map cardFlags ∧
      g'.moves = g.moves ∧ g'.victory = g.victory ∧
      g'.first_selection = none ∧ g'.second_selection = none ∧
      g'.wait_time = 0 := by
  refine ⟨{ cards := g.cards.map fun c =>
              { c with flip_progress :=
                  if c.is_flipped || c.is_matched then CARD_SIZE else 0 },
            first_selection := none, second_selection := none,
            moves := g.moves, victory := g.victory, wait_time := 0 },
          ?_, ?_, rfl, rfl, rfl, rfl, rfl⟩
  · simp [Game.save_game, load_game, loadCards_save]
  · simp only [List.map_map]
    exact List.map_congr_left fun c _ => rfl

/-- Claim C4 counterexample: `badCountRecord` carries exactly one tile
with symbol "1" (count 1 ≠ 2) and every required field present, yet
`load_game` accepts it instead of rejecting it. -/
theorem c4_counterexample :
    ((badCountRecord.cards.getD []).countP (fun cd => cd.value == some "1")) ≠ 2 ∧
    (load_game badCountRecord).isSome = true := by decide

/-- Claim C4 (amended): `load_game` fails exactly when a required field
is missing; no symbol-count validation is performed, so any record with
all fields present — whatever its symbol counts — is accepted. -/
theorem c4_missing_fields_only (sd : SaveData) :
    (load_game sd).isSome = hasAllFields sd := by
  rcases sd with ⟨m, v, cds⟩
  cases m <;> cases v <;> cases cds <;>
    simp [load_game, hasAllFields]
  case some.some.some m v cds =>
    have h := loadCards_isSome cds
    cases h2 : loadCards cds <;> rw [h2] at h <;> simp [← h]

/-! ## Claim C6 -/

/-- Claim C6: `handle_click` returns the session unchanged — the same
cards, selections, move counter, wait counter and victory flag — whenever
the session is won, or the pending-hide countdown is running, or every
card hit by the click is already face up or matched, or the click lands
on the card currently held as the first selection. -/
theorem c6_ignored_taps (g : Game) (px py : Int)
    (h : g.victory = true ∨ 0 < g.wait_time ∨
      (∀ c ∈ g.cards, c.collidepoint px py = true →
        c.is_flipped = true ∨ c.is_matched = true) ∨
      (∃ j, g.first_selection = some j ∧
        findEligible px py g.cards = some j)) :
    g.handle_click px py = g := by
  rcases h with hv | hw | hall | ⟨j, hj, hfind⟩
  · simp [Game.handle_click, hv]
  · simp [Game.handle_click, hw]
  · simp only [Game.handle_click, findEligible_eq_none hall]
    split <;> rfl
  · simp only [Game.handle_click, hfind, hj]
    cases hs : g.second_selection <;> simp [hs]

/-- Witness for C6: a tap on a won (empty-board) session is ignored. -/
theorem c6_ignored_taps_witness :
    Game.handle_click
      { cards := [], first_selection := none, second_selection := none,
        moves := 0, victory := true, wait_time := 0 } 0 0
      = { cards := [], first_selection := none, second_selection := none,
          moves := 0, victory := true, wait_time := 0 } :=
  c6_ignored_taps _ 0 0 (Or.inl rfl)

/-! ## Claim C5 -/

theorem reset_selection_moves (g : Game) : g.reset_selection.moves = g.moves := rfl

theorem check_victory_moves (g : Game) : g.check_victory.moves = g.moves := by
  rw [Game.check_victory]; split <;> rfl

theorem handle_click_moves (g : Game) (px py : Int) :
    (g.handle_click px py).moves
      = g.moves + (if completesPair g px py then 1 else 0) := by
  by_cases hv : g.victory = true
  · have hcp : completesPair g px py = false := by simp [completesPair, hv]
    simp [Game.handle_click, hv, hcp]
  · replace hv : g.victory = false := Bool.eq_false_iff.mpr hv
    by_cases hw : g.wait_time = 0
    · cases hfe : findEligible px py g.cards with
      | none =>
        have hcp : completesPair g px py = false := by
          simp [completesPair, hw, hv, hfe]
        simp [Game.handle_click, hw, hv, hfe, hcp]
      | some i =>
        cases hf1 : g.first_selection with
        | none =>
          have hcp : completesPair g px py = false := by
            simp [completesPair, hw, hv, hfe, hf1]
          simp [Game.handle_click, hw, hv, hfe, hf1, hcp]
        | some j =>
          cases hf2 : g.second_selection with
          | none =>
            by_cases hij : i = j
            · have hcp : completesPair g px py = false := by
                simp [completesPair, hw, hv, hfe, hf1, hf2, hij]
              simp [Game.handle_click, hw, hv, hfe, hf1, hf2, hij, hcp]
            · have hcp : completesPair g px py = true := by
                simp [completesPair, hw, hv, hfe, hf1, hf2, hij]
              rw [hcp]
              simp only [Game.handle_click, hw, hv, hfe, hf1, hf2]
              rw [if_neg (by simp)]
              rw [if_neg hij]
              split_ifs with hval
              · rw [reset_selection_moves, check_victory_moves]
              · rfl
          | some k =>
            have hcp : completesPair g px py = false := by
              simp [completesPair, hw, hv, hfe, hf1, hf2]
            simp [Game.handle_click, hw, hv, hfe, hf1, hf2, hcp]
    · have hw' : 0 < g.wait_time := Nat.pos_of_ne_zero hw
      have hcp : completesPair g px py = false := by
        simp [completesPair, hw]
      simp [Game.handle_click, hw', hcp]

theorem flip_back_moves (g : Game) : g.flip_back_cards.moves = g.moves := by
  rw [Game.flip_back_cards]
  cases g.first_selection <;> cases g.second_selection <;> rfl

theorem update_moves (g : Game) : g.update.moves = g.moves := by
  rw [Game.update]
  split
  · split
    · exact flip_back_moves _
    · rfl
  · rfl

theorem run_moves (evs : List Ev) :
    ∀ g : Game, (g.run evs).moves = g.moves + countPairs g evs := by
  induction evs with
  | nil => intro g; simp [Game.run, countPairs]
  | cons e es ih =>
    intro g
    cases e with
    | click px py =>
      simp only [Game.run, countPairs, Game.step, ih, handle_click_moves]
      omega
    | tick =>
      simp only [Game.run, countPairs, Game.step, ih, update_moves]

/-- Claim C5: a click increments `moves` by exactly one when it completes
a two-tile comparison and leaves it unchanged otherwise (first picks and
ignored taps included); ticks never change `moves`; hence from any fresh
game, `moves` after a trace equals the number of completed comparisons in
that trace. -/
theorem c5_move_count (g : Game) (px py : Int) (vs : List String)
    (g0 : Game) (evs : List Ev) (h : Game.mkFresh vs = some g0) :
    (g.handle_click px py).moves
        = g.moves + (if completesPair g px py then 1 else 0) ∧
    g.update.moves = g.moves ∧
    (g0.run evs).moves = countPairs g0 evs := by
  refine ⟨handle_click_moves g px py, update_moves g, ?_⟩
  have h0 : g0.moves = 0 := by
    rw [Game.mkFresh] at h
    cases hcs : initialize_cards vs <;> rw [hcs] at h
    · simp at h
    · simp at h
      rw [← h]
  rw [run_moves, h0, Nat.zero_add]

/-- Witness for C5 at the identity-shuffle fresh game and a one-tick
trace. -/
theorem c5_move_count_witness :
    (gEx.handle_click 0 0).moves
        = gEx.moves + (if completesPair gEx 0 0 then 1 else 0) ∧
    gEx.update.moves = gEx.moves ∧
    (gEx.run [Ev.tick]).moves = countPairs gEx [Ev.tick] :=
  c5_move_count gEx 0 0 (CARD_VALUES ++ CARD_VALUES) gEx [Ev.tick] (by decide)

/-! ## Card-level field lemmas -/

@[simp] theorem flip_value (c : Card) : c.flip.value = c.value := rfl
@[simp] theorem flip_is_matched (c : Card) : c.flip.is_matched = c.is_matched := rfl
@[simp] theorem flip_is_flipped (c : Card) : c.flip.is_flipped = !c.is_flipped := rfl

@[simp] theorem ua_is_flipped (c : Card) :
    c.update_animation.is_flipped = c.is_flipped := by
  rw [Card.update_animation]; split_ifs <;> rfl

@[simp] theorem ua_is_matched (c : Card) :
    c.update_animation.is_matched = c.is_matched := by
  rw [Card.update_animation]; split_ifs <;> rfl

@[simp] theorem ua_value (c : Card) : c.update_animation.value = c.value := by
  rw [Card.update_animation]; split_ifs <;> rfl

@[simp] theorem ua_fu (c : Card) : fu c.update_animation = fu c := by
  simp [fu]

/-! ## Counting face-up-but-unmatched cards from index bounds -/

theorem filter_len_zero {p : Card → Bool} (l : List Card)
    (h : ∀ k c, l.get? k = some c → p c = true → False) :
    l.filter p = [] := by
  rw [List.filter_eq_nil]
  intro a ha
  obtain ⟨n, hn⟩ := List.get?_of_mem ha
  intro hp
  exact h n a hn hp

theorem filter_len_le_one {p : Card → Bool} :
    ∀ (l : List Card) (j : Nat),
      (∀ k c, l.get? k = some c → p c = true → k = j) →
      (l.filter p).length ≤ 1 := by
  intro l
  induction l with
  | nil => intro j h; simp
  | cons c t ih =>
    intro j h
    cases hp : p c with
    | true =>
      have hj : 0 = j := h 0 c rfl hp
      have ht : t.filter p = [] := filter_len_zero t (fun k c' hk hp' => by
        have := h (k + 1) c' hk hp'
        omega)
      simp [List.filter_cons, hp, ht]
    | false =>
      have ht : (t.filter p).length ≤ 1 := by
        cases j with
        | zero =>
          have ht0 : t.filter p = [] := filter_len_zero t (fun k c' hk hp' => by
            have := h (k + 1) c' hk hp'
            omega)
          simp [ht0]
        | succ j' =>
          exact ih j' (fun k c' hk hp' => by
            have := h (k + 1) c' hk hp'
            omega)
      simpa [List.filter_cons, hp]

theorem filter_len_le_two {p : Card → Bool} :
    ∀ (l : List Card) (j i : Nat),
      (∀ k c, l.get? k = some c → p c = true → k = j ∨ k = i) →
      (l.filter p).length ≤ 2 := by
  intro l
  induction l with
  | nil => intro j i h; simp
  | cons c t ih =>
    intro j i h
    cases hp : p c with
    | true =>
      have hj : 0 = j ∨ 0 = i := h 0 c rfl hp
      have ht : (t.filter p).length ≤ 1 := by
        rcases hj with hj | hj
        · refine filter_len_le_one t (i - 1) (fun k c' hk hp' => ?_)
          have := h (k + 1) c' hk hp'
          omega
        · refine filter_len_le_one t (j - 1) (fun k c' hk hp' => ?_)
          have := h (k + 1) c' hk hp'
          omega
      simp only [List.filter_cons, hp, if_true, List.length_cons]
      omega
    | false =>
      have ht : (t.filter p).length ≤ 2 := by
        refine ih (j - 1) (i - 1) (fun k c' hk hp' => ?_)
        have := h (k + 1) c' hk hp'
        omega
      simpa [List.filter_cons, hp]

/-! ## Branch characterizations of `handle_click` and `update` -/

theorem handle_click_guard {g : Game} (px py : Int)
    (h : 0 < g.wait_time ∨ g.victory = true) :
    g.handle_click px py = g := by
  rcases h with h | h <;> simp [Game.handle_click, h]

theorem handle_click_nohit {g : Game} (px py : Int)
    (hw : g.wait_time = 0) (hv : g.victory = false)
    (hfe : findEligible px py g.cards = none) :
    g.handle_click px py = g := by
  simp [Game.handle_click, hw, hv, hfe]

theorem handle_click_first {g : Game} {px py : Int} {i : Nat}
    (hw : g.wait_time = 0) (hv : g.victory = false)
    (hfe : findEligible px py g.cards = some i)
    (hf1 : g.first_selection = none) :
    g.handle_click px py
      = { g with first_selection := some i,
                 cards := modifyAt Card.flip g.cards i } := by
  simp [Game.handle_click, hw, hv, hfe, hf1]

theorem handle_click_retap {g : Game} {px py : Int} {i j : Nat}
    (hw : g.wait_time = 0) (hv : g.victory = false)
    (hfe : findEligible px py g.cards = some i)
    (hf1 : g.first_selection = some j)
    (hf2 : g.second_selection = none) (hij : i = j) :
    g.handle_click px py = g := by
  simp [Game.handle_click, hw, hv, hfe, hf1, hf2, hij]

theorem handle_click_both {g : Game} {px py : Int} {i j k : Nat}
    (hw : g.wait_time = 0) (hv : g.victory = false)
    (hfe : findEligible px py g.cards = some i)
    (hf1 : g.first_selection = some j)
    (hf2 : g.second_selection = some k) :
    g.handle_click px py = g := by
  simp [Game.handle_click, hw, hv, hfe, hf1, hf2]

theorem handle_click_match {g : Game} {px py : Int} {i j : Nat}
    (hw : g.wait_time = 0) (hv : g.victory = false)
    (hfe : findEligible px py g.cards = some i)
    (hf1 : g.first_selection = some j)
    (hf2 : g.second_selection = none) (hij : i ≠ j)
    (hval : valueAt (modifyAt Card.flip g.cards i) j
          = valueAt (modifyAt Card.flip g.cards i) i) :
    g.handle_click px py
      = Game.reset_selection (Game.check_victory
          { g with
              cards := setMatched (setMatched (modifyAt Card.flip g.cards i) j) i,
              second_selection := some i, moves := g.moves + 1 }) := by
  simp only [Game.handle_click, hw, hv, hfe, hf1, hf2]
  rw [if_neg (by simp), if_neg hij, if_pos hval]

theorem handle_click_mismatch {g : Game} {px py : Int} {i j : Nat}
    (hw : g.wait_time = 0) (hv : g.victory = false)
    (hfe : findEligible px py g.cards = some i)
    (hf1 : g.first_selection = some j)
    (hf2 : g.second_selection = none) (hij : i ≠ j)
    (hval : valueAt (modifyAt Card.flip g.cards i) j
          ≠ valueAt (modifyAt Card.flip g.cards i) i) :
    g.handle_click px py
      = { g with cards := modifyAt Card.flip g.cards i,
                 second_selection := some i, moves := g.moves + 1,
                 wait_time := FPS } := by
  simp only [Game.handle_click, hw, hv, hfe, hf1, hf2]
  rw [if_neg (by simp), if_neg hij, if_neg hval]

theorem update_no_wait {g : Game} (hw : g.wait_time = 0) :
    g.update = { g with cards := g.cards.map Card.update_animation } := by
  simp [Game.update, hw]

theorem update_wait_pos {g : Game} (hw : 1 < g.wait_time) :
    g.update = { g with cards := g.cards.map Card.update_animation,
                        wait_time := g.wait_time - 1 } := by
  rw [Game.update, if_pos (by omega), if_neg (by omega)]

theorem update_wait_one {g : Game} (hw : g.wait_time = 1) :
    g.update = Game.flip_back_cards
      { g with cards := g.cards.map Card.update_animation, wait_time := 0 } := by
  rw [Game.update, if_pos (by omega), if_pos (by omega)]
  rw [hw]

/-! ## Helpers about `allMatched` and eligibility -/

theorem allMatched_iff (cs : List Card) :
    allMatched cs ↔ ∀ k c, cs.get? k = some c → c.is_matched = true := by
  constructor
  · intro h k c hk
    exact h c (List.get?_mem hk)
  · intro h c hc
    obtain ⟨n, hn⟩ := List.get?_of_mem hc
    exact h n c hn

theorem not_allMatched_of_get? {cs : List Card} {k : Nat} {c : Card}
    (hk : cs.get? k = some c) (hm : c.is_matched = false) :
    ¬ allMatched cs := by
  intro hall
  have := hall c (List.get?_mem hk)
  rw [hm] at this
  cases this

theorem victory_iff_of_false {g' : Game} (hv' : g'.victory = false)
    (hnall : ¬ allMatched g'.cards) :
    g'.victory = true ↔ allMatched g'.cards := by
  rw [hv']
  simp [hnall]

theorem allMatched_modifyAt {f : Card → Card}
    (hf : ∀ c, (f c).is_matched = c.is_matched) (cs : List Card) (k : Nat) :
    allMatched (modifyAt f cs k) ↔ allMatched cs := by
  rw [allMatched_iff, allMatched_iff]
  constructor
  · intro h n c hn
    by_cases hnk : n = k
    · subst hnk
      have := h n (f c) (by rw [get?_modifyAt_self, hn]; rfl)
      rw [hf] at this
      exact this
    · exact h n c (by rw [get?_modifyAt_ne _ _ hnk]; exact hn)
  · intro h n c hn
    by_cases hnk : n = k
    · subst hnk
      rw [get?_modifyAt_self] at hn
      cases hcs : cs.get? n <;> rw [hcs] at hn
      · cases hn
      · rename_i c0
        have hc : f c0 = c := Option.some.inj hn
        rw [← hc, hf]
        exact h n c0 hcs
    · rw [get?_modifyAt_ne _ _ hnk] at hn
      exact h n c hn

theorem allMatched_map_ua (cs : List Card) :
    allMatched (cs.map Card.update_animation) ↔ allMatched cs := by
  unfold allMatched
  constructor
  · intro h c hc
    have := h c.update_animation (List.mem_map_of_mem _ hc)
    rwa [ua_is_matched] at this
  · intro h c hc
    obtain ⟨c0, hc0, rfl⟩ := List.mem_map.mp hc
    rw [ua_is_matched]
    exact h c0 hc0

theorem eligible_flags {px py : Int} {c : Card}
    (h : eligible px py c = true) :
    c.is_flipped = false ∧ c.is_matched = false := by
  simp only [eligible, Bool.and_eq_true, Bool.not_eq_true'] at h
  exact ⟨h.1.2, h.2⟩

theorem check_victory_true {g : Game}
    (hall : g.cards.all (·.is_matched) = true) :
    g.check_victory = { g with victory := true } := by
  rw [Game.check_victory, if_pos hall]

theorem check_victory_false {g : Game}
    (hall : g.cards.all (·.is_matched) = false) :
    g.check_victory = g := by
  rw [Game.check_victory, if_neg (by simp [hall])]

/-! ## The fresh game satisfies the invariant -/

theorem buildCards_card_flags :
    ∀ (ps : List (Int × Int)) (vs : List String) (cs : List Card),
      buildCards ps vs = some cs →
      cs.length = ps.length ∧
        ∀ c ∈ cs, c.is_flipped = false ∧ c.is_matched = false := by
  intro ps
  induction ps with
  | nil =>
    intro vs cs h
    simp only [buildCards, Option.some.injEq] at h
    subst h
    simp
  | cons p ps ih =>
    intro vs cs h
    rw [buildCards] at h
    cases hv : vs.getLast? <;> rw [hv] at h
    · cases h
    case some v =>
      cases hb : buildCards ps vs.dropLast <;> rw [hb] at h
      · cases h
      case some cs' =>
        obtain ⟨hlen, hflags⟩ := ih _ _ hb
        have hcs : Card.mk0 p.1 p.2 v :: cs' = cs := Option.some.inj h
        subst hcs
        refine ⟨by simp [hlen], ?_⟩
        intro c hc
        rcases List.mem_cons.mp hc with rfl | hc
        · exact ⟨rfl, rfl⟩
        · exact hflags c hc

theorem inv_fresh {vs : List String} {g : Game}
    (h : Game.mkFresh vs = some g) : GameInv g := by
  rw [Game.mkFresh] at h
  cases hcs : initialize_cards vs <;> rw [hcs] at h
  · cases h
  case some cs =>
    simp only [Option.map_some'] at h
    obtain rfl := Option.some.inj h
    rw [initialize_cards] at hcs
    obtain ⟨hlen, hflags⟩ := buildCards_card_flags _ _ _ hcs
    constructor
    · simp only [SelInv]
      exact ⟨by trivial, fun c hc => by simp [fu, (hflags c hc).1]⟩
    · constructor
      · intro hvt
        cases hvt
      · intro hall
        exfalso
        have h16 : gridPositions.length = 16 := by decide
        cases cs with
        | nil => rw [List.length_nil, h16] at hlen; cases hlen
        | cons c cs' =>
          have h1 := hall c (List.mem_cons_self _ _)
          have h2 := (hflags c (List.mem_cons_self _ _)).2
          rw [h2] at h1
          cases h1

/-! ## `handle_click` preserves the invariant -/

theorem inv_click {g : Game} (px py : Int) (h : GameInv g) :
    GameInv (g.handle_click px py) := by
  obtain ⟨hs, hvic⟩ := h
  by_cases hguard : 0 < g.wait_time ∨ g.victory = true
  · rw [handle_click_guard px py hguard]
    exact ⟨hs, hvic⟩
  · push_neg at hguard
    obtain ⟨hw', hv'⟩ := hguard
    have hw : g.wait_time = 0 := by omega
    have hv : g.victory = false := Bool.eq_false_iff.mpr hv'
    have hnall : ¬ allMatched g.cards := fun hall => by
      have := hvic.mpr hall
      rw [hv] at this
      cases this
    cases hfe : findEligible px py g.cards with
    | none =>
      rw [handle_click_nohit px py hw hv hfe]
      exact ⟨hs, hvic⟩
    | some i =>
      obtain ⟨ci, hgi, heli⟩ := findEligible_some hfe
      obtain ⟨hifl, him⟩ := eligible_flags heli
      cases hf1 : g.first_selection with
      | none =>
        cases hf2 : g.second_selection with
        | some k =>
          simp only [SelInv, hf1, hf2] at hs
        | none =>
          simp only [SelInv, hf1, hf2] at hs
          rw [handle_click_first hw hv hfe hf1]
          constructor
          · simp only [SelInv, hf2]
            refine ⟨hw, ?_, ?_⟩
            · exact ⟨ci.flip, by rw [get?_modifyAt_self, hgi]; rfl,
                by simp [hifl], by simp [him]⟩
            · intro k c hk hfc
              by_cases hki : k = i
              · exact hki
              · rw [get?_modifyAt_ne _ _ hki] at hk
                have := hs.2 c (List.get?_mem hk)
                rw [hfc] at this
                cases this
          · exact victory_iff_of_false hv
              (fun hall =>
                hnall ((allMatched_modifyAt (f := Card.flip) (fun c => rfl)
                  g.cards i).mp hall))
      | some j =>
        cases hf2 : g.second_selection with
        | some k =>
          simp only [SelInv, hf1, hf2] at hs
          exact absurd hs.2.2.2.1 (by omega)
        | none =>
          simp only [SelInv, hf1, hf2] at hs
          obtain ⟨hw0, ⟨cj, hgj, hjfl, hjm⟩, honly⟩ := hs
          by_cases hij : i = j
          · rw [handle_click_retap hw hv hfe hf1 hf2 hij]
            refine ⟨?_, hvic⟩
            simp only [SelInv, hf1, hf2]
            exact ⟨hw0, ⟨cj, hgj, hjfl, hjm⟩, honly⟩
          · have hji : j ≠ i := fun hh => hij hh.symm
            by_cases hval : valueAt (modifyAt Card.flip g.cards i) j
                = valueAt (modifyAt Card.flip g.cards i) i
            · rw [handle_click_match hw hv hfe hf1 hf2 hij hval]
              have hgj2 :
                  (setMatched (setMatched (modifyAt Card.flip g.cards i) j) i).get? j
                    = some { cj with is_matched := true } := by
                rw [setMatched, setMatched, get?_modifyAt_ne _ _ hji,
                  get?_modifyAt_self, get?_modifyAt_ne _ _ hji, hgj]
                rfl
              have hgi2 :
                  (setMatched (setMatched (modifyAt Card.flip g.cards i) j) i).get? i
                    = some { ci.flip with is_matched := true } := by
                rw [setMatched, setMatched, get?_modifyAt_self,
                  get?_modifyAt_ne _ _ hij, get?_modifyAt_self, hgi]
                rfl
              have hother : ∀ k, k ≠ i → k ≠ j →
                  (setMatched (setMatched (modifyAt Card.flip g.cards i) j) i).get? k
                    = g.cards.get? k := by
                intro k hki hkj
                rw [setMatched, setMatched, get?_modifyAt_ne _ _ hki,
                  get?_modifyAt_ne _ _ hkj, get?_modifyAt_ne _ _ hki]
              have hfu2 : ∀ c ∈ (setMatched (setMatched (modifyAt Card.flip g.cards i) j) i),
                  fu c = false := by
                intro c hc
                obtain ⟨n, hn⟩ := List.get?_of_mem hc
                by_cases hni : n = i
                · subst hni
                  rw [hgi2] at hn
                  obtain rfl := Option.some.inj hn
                  simp [fu]
                · by_cases hnj : n = j
                  · subst hnj
                    rw [hgj2] at hn
                    obtain rfl := Option.some.inj hn
                    simp [fu]
                  · rw [hother n hni hnj] at hn
                    cases hfc : fu c
                    · rfl
                    · exact absurd (honly n c hn hfc) hnj
              cases hall : (setMatched (setMatched (modifyAt Card.flip g.cards i) j) i).all
                  (·.is_matched) with
              | true =>
                rw [check_victory_true hall]
                constructor
                · simp only [SelInv, Game.reset_selection]
                  exact ⟨hw, hfu2⟩
                · simp only [Game.reset_selection]
                  constructor
                  · intro _
                    intro c hc
                    exact List.all_eq_true.mp hall c hc
                  · intro _
                    trivial
              | false =>
                rw [check_victory_false hall]
                have hnall2 : ¬ allMatched
                    (setMatched (setMatched (modifyAt Card.flip g.cards i) j) i) := by
                  intro hall2
                  have h2 := List.all_eq_true.mpr fun c hc => hall2 c hc
                  rw [hall] at h2
                  cases h2
                constructor
                · simp only [SelInv, Game.reset_selection]
                  exact ⟨hw, hfu2⟩
                · exact victory_iff_of_false hv hnall2
            · rw [handle_click_mismatch hw hv hfe hf1 hf2 hij hval]
              constructor
              · simp only [SelInv, hf1]
                refine ⟨hji, ?_, ?_, by decide, ?_⟩
                · exact ⟨cj, by rw [get?_modifyAt_ne _ _ hji, hgj], hjfl, hjm⟩
                · exact ⟨ci.flip, by rw [get?_modifyAt_self, hgi]; rfl,
                    by simp [hifl], by simp [him]⟩
                · intro k c hk hfc
                  by_cases hki : k = i
                  · exact Or.inr hki
                  · rw [get?_modifyAt_ne _ _ hki] at hk
                    exact Or.inl (honly k c hk hfc)
              · exact victory_iff_of_false hv
                  (not_allMatched_of_get?
                    (by rw [get?_modifyAt_self, hgi]; rfl)
                    (by simp [him]))

/-! ## `update` preserves the invariant -/

theorem matchedAt_eq {cs : List Card} {k : Nat} {c : Card}
    (h : cs.get? k = some c) : matchedAt cs k = c.is_matched := by
  unfold matchedAt
  rw [h]

theorem inv_update {g : Game} (h : GameInv g) : GameInv g.update := by
  obtain ⟨hs, hvic⟩ := h
  by_cases hw0 : g.wait_time = 0
  · rw [update_no_wait hw0]
    constructor
    · cases hf1 : g.first_selection with
      | none =>
        cases hf2 : g.second_selection with
        | some k => simp only [SelInv, hf1, hf2] at hs
        | none =>
          simp only [SelInv, hf1, hf2] at hs ⊢
          refine ⟨hs.1, ?_⟩
          intro c hc
          obtain ⟨c0, hc0, rfl⟩ := List.mem_map.mp hc
          rw [ua_fu]
          exact hs.2 c0 hc0
      | some j =>
        cases hf2 : g.second_selection with
        | some k =>
          simp only [SelInv, hf1, hf2] at hs
          exact absurd hs.2.2.2.1 (by omega)
        | none =>
          simp only [SelInv, hf1, hf2] at hs ⊢
          obtain ⟨hwz, ⟨cj, hgj, hjfl, hjm⟩, honly⟩ := hs
          refine ⟨hwz, ⟨cj.update_animation, ?_, ?_, ?_⟩, ?_⟩
          · rw [List.get?_map, hgj]; rfl
          · rw [ua_is_flipped, hjfl]
          · rw [ua_is_matched, hjm]
          · intro k c hk hfc
            rw [List.get?_map] at hk
            cases hck : g.cards.get? k <;> rw [hck] at hk
            · cases hk
            · rename_i c0
              obtain rfl := Option.some.inj hk
              rw [ua_fu] at hfc
              exact honly k c0 hck hfc
    · show g.victory = true ↔ allMatched (g.cards.map Card.update_animation)
      rw [allMatched_map_ua]
      exact hvic
  · cases hf1 : g.first_selection with
    | none =>
      cases hf2 : g.second_selection with
      | some k => simp only [SelInv, hf1, hf2] at hs
      | none =>
        simp only [SelInv, hf1, hf2] at hs
        exact absurd hs.1 hw0
    | some j =>
      cases hf2 : g.second_selection with
      | none =>
        simp only [SelInv, hf1, hf2] at hs
        exact absurd hs.1 hw0
      | some i =>
        simp only [SelInv, hf1, hf2] at hs
        obtain ⟨hji, ⟨cj, hgj, hjfl, hjm⟩, ⟨ci, hgi, hifl, him⟩, hwpos, honly⟩ := hs
        have hij : i ≠ j := fun hh => hji hh.symm
        have hXj : (g.cards.map Card.update_animation).get? j
            = some cj.update_animation := by rw [List.get?_map, hgj]; rfl
        have hXi : (g.cards.map Card.update_animation).get? i
            = some ci.update_animation := by rw [List.get?_map, hgi]; rfl
        by_cases hw1 : g.wait_time = 1
        · rw [update_wait_one hw1]
          have hm1 : matchedAt (g.cards.map Card.update_animation) j = false := by
            rw [matchedAt_eq hXj, ua_is_matched, hjm]
          have hg2 : (modifyAt Card.flip (g.cards.map Card.update_animation) j).get? i
              = some ci.update_animation := by
            rw [get?_modifyAt_ne _ _ hij, hXi]
          have hm2 : matchedAt
              (modifyAt Card.flip (g.cards.map Card.update_animation) j) i
              = false := by
            rw [matchedAt_eq hg2, ua_is_matched, him]
          have hstep : Game.flip_back_cards
              { g with cards := g.cards.map Card.update_animation, wait_time := 0 }
              = { g with
                    cards := modifyAt Card.flip
                      (modifyAt Card.flip (g.cards.map Card.update_animation) j) i,
                    first_selection := none, second_selection := none,
                    wait_time := 0 } := by
            simp [Game.flip_back_cards, hf1, hf2, hm1, hm2]
          rw [hstep]
          have hvf : g.victory = false := by
            cases hvv : g.victory
            · rfl
            · exact absurd (hvic.mp hvv) (not_allMatched_of_get? hgi him)
          constructor
          · simp only [SelInv]
            refine ⟨by trivial, ?_⟩
            intro c hc
            obtain ⟨n, hn⟩ := List.get?_of_mem hc
            by_cases hnj : n = j
            · subst hnj
              rw [get?_modifyAt_ne _ _ hji, get?_modifyAt_self, hXj] at hn
              obtain rfl := Option.some.inj hn
              simp [fu, hjfl]
            · by_cases hni : n = i
              · subst hni
                rw [get?_modifyAt_self, get?_modifyAt_ne _ _ hij, hXi] at hn
                obtain rfl := Option.some.inj hn
                simp [fu, hifl]
              · rw [get?_modifyAt_ne _ _ hni, get?_modifyAt_ne _ _ hnj,
                  List.get?_map] at hn
                cases hck : g.cards.get? n <;> rw [hck] at hn
                · cases hn
                · rename_i c0
                  obtain rfl := Option.some.inj hn
                  rw [ua_fu]
                  cases hfc : fu c0
                  · rfl
                  · rcases honly n c0 hck hfc with hh | hh
                    · exact absurd hh hnj
                    · exact absurd hh hni
          · refine victory_iff_of_false hvf ?_
            refine not_allMatched_of_get?
              (k := i) (c := (ci.update_animation).flip) ?_ ?_
            · show (modifyAt Card.flip
                (modifyAt Card.flip (g.cards.map Card.update_animation) j) i).get? i
                  = some (ci.update_animation).flip
              rw [get?_modifyAt_self, get?_modifyAt_ne _ _ hij, hXi]
              rfl
            · rw [flip_is_matched, ua_is_matched, him]
        · have hw2 : 1 < g.wait_time := by omega
          rw [update_wait_pos hw2]
          constructor
          · simp only [SelInv, hf1, hf2]
            refine ⟨hji, ⟨cj.update_animation, hXj, ?_, ?_⟩,
              ⟨ci.update_animation, hXi, ?_, ?_⟩, by omega, ?_⟩
            · rw [ua_is_flipped, hjfl]
            · rw [ua_is_matched, hjm]
            · rw [ua_is_flipped, hifl]
            · rw [ua_is_matched, him]
            · intro k c hk hfc
              rw [List.get?_map] at hk
              cases hck : g.cards.get? k <;> rw [hck] at hk
              · cases hk
              · rename_i c0
                obtain rfl := Option.some.inj hk
                rw [ua_fu] at hfc
                exact honly k c0 hck hfc
          · show g.victory = true ↔ allMatched (g.cards.map Card.update_animation)
            rw [allMatched_map_ua]
            exact hvic

/-! ## Reachability gives the invariant; claims C1 and C7 -/

theorem inv_reachable {g : Game} (h : Reachable g) : GameInv g := by
  induction h with
  | fresh vs g hperm hmk => exact inv_fresh hmk
  | click g px py _ ih => exact inv_click px py ih
  | tick g _ ih => exact inv_update ih

/-- Claim C1: in every session reachable from a fresh game by
`handle_click` and `update` operations, at most two cards are
simultaneously face up (`is_flipped`) and not matched. -/
theorem c1_at_most_two_revealed (g : Game) (h : Reachable g) :
    (g.cards.filter fu).length ≤ 2 := by
  have hs := (inv_reachable h).1
  cases hf1 : g.first_selection with
  | none =>
    cases hf2 : g.second_selection with
    | some k => simp only [SelInv, hf1, hf2] at hs
    | none =>
      simp only [SelInv, hf1, hf2] at hs
      have hz : g.cards.filter fu = [] := filter_len_zero _ (fun k c hk hfc => by
        have := hs.2 c (List.get?_mem hk)
        rw [hfc] at this
        cases this)
      simp [hz]
  | some j =>
    cases hf2 : g.second_selection with
    | none =>
      simp only [SelInv, hf1, hf2] at hs
      exact le_trans (filter_len_le_one _ j hs.2.2) (by omega)
    | some i =>
      simp only [SelInv, hf1, hf2] at hs
      exact filter_len_le_two _ j i hs.2.2.2.2

/-- Witness for C1 at the fresh identity-shuffle game. -/
theorem c1_at_most_two_revealed_witness : (gEx.cards.filter fu).length ≤ 2 :=
  c1_at_most_two_revealed gEx
    (Reachable.fresh (CARD_VALUES ++ CARD_VALUES) gEx (List.Perm.refl _) (by decide))

/-- Claim C7: in every reachable session the `victory` flag is set exactly
when every card is matched. -/
theorem c7_victory_iff_all_matched (g : Game) (h : Reachable g) :
    g.victory = true ↔ ∀ c ∈ g.cards, c.is_matched = true :=
  (inv_reachable h).2

/-- Witness for C7 at the fresh identity-shuffle game. -/
theorem c7_victory_iff_all_matched_witness :
    gEx.victory = true ↔ ∀ c ∈ gEx.cards, c.is_matched = true :=
  c7_victory_iff_all_matched gEx
    (Reachable.fresh (CARD_VALUES ++ CARD_VALUES) gEx (List.Perm.refl _) (by decide))

/-! ## Claim C3: mismatch scenario -/

theorem valueAt_modifyAt {f : Card → Card} (hf : ∀ c, (f c).value = c.value)
    (l : List Card) (k m : Nat) :
    valueAt (modifyAt f l k) m = valueAt l m := by
  by_cases hmk : m = k
  · subst hmk
    unfold valueAt
    rw [get?_modifyAt_self]
    cases l.get? m <;> simp [hf]
  · unfold valueAt
    rw [get?_modifyAt_ne _ _ hmk]

theorem runTicks_flip_back :
    ∀ (n : Nat) (g : Game) (j i : Nat) (cj ci : Card),
      g.wait_time = n → 0 < n →
      g.first_selection = some j → g.second_selection = some i → j ≠ i →
      g.cards.get? j = some cj → cj.is_flipped = true → cj.is_matched = false →
      g.cards.get? i = some ci → ci.is_flipped = true → ci.is_matched = false →
      (runTicks n g).wait_time = 0 ∧
      (runTicks n g).first_selection = none ∧
      (runTicks n g).second_selection = none ∧
      flaggedAt (runTicks n g).cards j false false ∧
      flaggedAt (runTicks n g).cards i false false := by
  intro n
  induction n with
  | zero =>
    intro g j i cj ci hwn h0 hf1 hf2 hji hgj hjfl hjm hgi hifl him
    exact absurd h0 (by omega)
  | succ m ih =>
    intro g j i cj ci hwn h0 hf1 hf2 hji hgj hjfl hjm hgi hifl him
    have hij : i ≠ j := fun hh => hji hh.symm
    have hXj : (g.cards.map Card.update_animation).get? j
        = some cj.update_animation := by rw [List.get?_map, hgj]; rfl
    have hXi : (g.cards.map Card.update_animation).get? i
        = some ci.update_animation := by rw [List.get?_map, hgi]; rfl
    cases m with
    | zero =>
      show (g.update).wait_time = 0 ∧ (g.update).first_selection = none ∧
        (g.update).second_selection = none ∧
        flaggedAt (g.update).cards j false false ∧
        flaggedAt (g.update).cards i false false
      rw [update_wait_one hwn]
      have hm1 : matchedAt (g.cards.map Card.update_animation) j = false := by
        rw [matchedAt_eq hXj, ua_is_matched, hjm]
      have hg2 : (modifyAt Card.flip (g.cards.map Card.update_animation) j).get? i
          = some ci.update_animation := by
        rw [get?_modifyAt_ne _ _ hij, hXi]
      have hm2 : matchedAt
          (modifyAt Card.flip (g.cards.map Card.update_animation) j) i
          = false := by
        rw [matchedAt_eq hg2, ua_is_matched, him]
      have hstep : Game.flip_back_cards
          { g with cards := g.cards.map Card.update_animation, wait_time := 0 }
          = { g with
                cards := modifyAt Card.flip
                  (modifyAt Card.flip (g.cards.map Card.update_animation) j) i,
                first_selection := none, second_selection := none,
                wait_time := 0 } := by
        simp [Game.flip_back_cards, hf1, hf2, hm1, hm2]
      rw [hstep]
      refine ⟨rfl, rfl, rfl, ?_, ?_⟩
      · refine ⟨cj.update_animation.flip, ?_, ?_, ?_⟩
        · rw [get?_modifyAt_ne _ _ hji, get?_modifyAt_self, hXj]
          rfl
        · rw [flip_is_flipped, ua_is_flipped, hjfl]
          rfl
        · rw [flip_is_matched, ua_is_matched, hjm]
      · refine ⟨ci.update_animation.flip, ?_, ?_, ?_⟩
        · rw [get?_modifyAt_self, get?_modifyAt_ne _ _ hij, hXi]
          rfl
        · rw [flip_is_flipped, ua_is_flipped, hifl]
          rfl
        · rw [flip_is_matched, ua_is_matched, him]
    | succ m' =>
      have hw2 : 1 < g.wait_time := by omega
      show (runTicks (m' + 1) g.update).wait_time = 0 ∧
        (runTicks (m' + 1) g.update).first_selection = none ∧
        (runTicks (m' + 1) g.update).second_selection = none ∧
        flaggedAt (runTicks (m' + 1) g.update).cards j false false ∧
        flaggedAt (runTicks (m' + 1) g.update).cards i false false
      refine ih g.update j i cj.update_animation ci.update_animation
        ?_ (by omega) ?_ ?_ hji ?_ ?_ ?_ ?_ ?_ ?_
      · rw [update_wait_pos hw2]
        show g.wait_time - 1 = m' + 1
        omega
      · rw [update_wait_pos hw2]
        exact hf1
      · rw [update_wait_pos hw2]
        exact hf2
      · rw [update_wait_pos hw2]
        exact hXj
      · rw [ua_is_flipped, hjfl]
      · rw [ua_is_matched, hjm]
      · rw [update_wait_pos hw2]
        exact hXi
      · rw [ua_is_flipped, hifl]
      · rw [ua_is_matched, him]

/-- Claim C3: from a session with no picks (countdown idle, not won),
clicking an eligible card and then a second, different eligible card whose
symbol differs leaves both cards face up and unmatched, increments `moves`
by exactly one, and starts the pending-hide countdown at `FPS`; after
exactly `FPS` ticks both cards are face down again and the countdown is
back at zero. -/
theorem c3_mismatch_scenario (g : Game) (px1 py1 px2 py2 : Int) (i1 i2 : Nat)
    (hf1 : g.first_selection = none) (hf2 : g.second_selection = none)
    (hw : g.wait_time = 0) (hv : g.victory = false)
    (hfe1 : findEligible px1 py1 g.cards = some i1)
    (hfe2 : findEligible px2 py2 (g.handle_click px1 py1).cards = some i2)
    (hdiff : valueAt g.cards i1 ≠ valueAt g.cards i2) :
    flaggedAt ((g.handle_click px1 py1).handle_click px2 py2).cards i1 true false ∧
    flaggedAt ((g.handle_click px1 py1).handle_click px2 py2).cards i2 true false ∧
    ((g.handle_click px1 py1).handle_click px2 py2).moves = g.moves + 1 ∧
    ((g.handle_click px1 py1).handle_click px2 py2).wait_time = FPS ∧
    (runTicks FPS ((g.handle_click px1 py1).handle_click px2 py2)).wait_time = 0 ∧
    flaggedAt (runTicks FPS
      ((g.handle_click px1 py1).handle_click px2 py2)).cards i1 false false ∧
    flaggedAt (runTicks FPS
      ((g.handle_click px1 py1).handle_click px2 py2)).cards i2 false false := by
  have hg1 : g.handle_click px1 py1
      = { g with first_selection := some i1,
                 cards := modifyAt Card.flip g.cards i1 } :=
    handle_click_first hw hv hfe1 hf1
  obtain ⟨c1, hgi1, hel1⟩ := findEligible_some hfe1
  obtain ⟨h1fl, h1m⟩ := eligible_flags hel1
  rw [hg1] at hfe2
  obtain ⟨c2, hgi2', hel2⟩ := findEligible_some hfe2
  obtain ⟨h2fl, h2m⟩ := eligible_flags hel2
  have hne : i2 ≠ i1 := by
    intro hh
    subst hh
    rw [get?_modifyAt_self, hgi1] at hgi2'
    have hc : c1.flip = c2 := by simpa using hgi2'
    rw [← hc, flip_is_flipped, h1fl] at h2fl
    simp at h2fl
  have hgi2 : g.cards.get? i2 = some c2 := by
    rw [get?_modifyAt_ne _ _ hne] at hgi2'
    exact hgi2'
  have hval : valueAt (modifyAt Card.flip (modifyAt Card.flip g.cards i1) i2) i1
      ≠ valueAt (modifyAt Card.flip (modifyAt Card.flip g.cards i1) i2) i2 := by
    rw [valueAt_modifyAt (f := Card.flip) (fun c => rfl),
      valueAt_modifyAt (f := Card.flip) (fun c => rfl),
      valueAt_modifyAt (f := Card.flip) (fun c => rfl),
      valueAt_modifyAt (f := Card.flip) (fun c => rfl)]
    exact hdiff
  have hg2 : (g.handle_click px1 py1).handle_click px2 py2
      = { g with cards := modifyAt Card.flip (modifyAt Card.flip g.cards i1) i2,
                 first_selection := some i1, second_selection := some i2,
                 moves := g.moves + 1, wait_time := FPS } := by
    rw [hg1]
    exact handle_click_mismatch
      (g := { g with first_selection := some i1,
                     cards := modifyAt Card.flip g.cards i1 })
      hw hv hfe2 rfl hf2 hne hval
  have hq1 : (modifyAt Card.flip (modifyAt Card.flip g.cards i1) i2).get? i1
      = some c1.flip := by
    rw [get?_modifyAt_ne _ _ (fun hh => hne hh.symm), get?_modifyAt_self, hgi1]
    rfl
  have hq2 : (modifyAt Card.flip (modifyAt Card.flip g.cards i1) i2).get? i2
      = some c2.flip := by
    rw [get?_modifyAt_self, get?_modifyAt_ne _ _ hne, hgi2]
    rfl
  have hrt := runTicks_flip_back FPS
    ((g.handle_click px1 py1).handle_click px2 py2) i1 i2 c1.flip c2.flip
    (by rw [hg2]) (by decide)
    (by rw [hg2]) (by rw [hg2]) (fun hh => hne hh.symm)
    (by rw [hg2]; exact hq1)
    (by rw [flip_is_flipped, h1fl]; rfl)
    (by rw [flip_is_matched, h1m])
    (by rw [hg2]; exact hq2)
    (by rw [flip_is_flipped, h2fl]; rfl)
    (by rw [flip_is_matched, h2m])
  refine ⟨?_, ?_, ?_, ?_, hrt.1, hrt.2.2.2.1, hrt.2.2.2.2⟩
  · rw [hg2]
    exact ⟨c1.flip, hq1, by rw [flip_is_flipped, h1fl]; rfl,
      by rw [flip_is_matched, h1m]⟩
  · rw [hg2]
    exact ⟨c2.flip, hq2, by rw [flip_is_flipped, h2fl]; rfl,
      by rw [flip_is_matched, h2m]⟩
  · rw [hg2]
  · rw [hg2]

/-- Witness for C3: the identity-shuffle fresh game, clicking the cards at
(0,0) (symbol "8") and (0,1) (symbol "7"). -/
theorem c3_mismatch_scenario_witness :
    flaggedAt ((gEx.handle_click 105 25).handle_click 215 25).cards 0 true false ∧
    flaggedAt ((gEx.handle_click 105 25).handle_click 215 25).cards 1 true false ∧
    ((gEx.handle_click 105 25).handle_click 215 25).moves = gEx.moves + 1 ∧
    ((gEx.handle_click 105 25).handle_click 215 25).wait_time = FPS ∧
    (runTicks FPS ((gEx.handle_click 105 25).handle_click 215 25)).wait_time = 0 ∧
    flaggedAt (runTicks FPS
      ((gEx.handle_click 105 25).handle_click 215 25)).cards 0 false false ∧
    flaggedAt (runTicks FPS
      ((gEx.handle_click 105 25).handle_click 215 25)).cards 1 false false :=
  c3_mismatch_scenario gEx 105 25 215 25 0 1 (by decide) (by decide) (by decide)
    (by decide) (by decide) (by decide) (by decide)

/-! ## Claim C9: deck construction -/

theorem dropLast_append_of_getLast? :
    ∀ (l : List String) (v : String), l.getLast? = some v →
      l.dropLast ++ [v] = l := by
  intro l
  induction l with
  | nil => intro v h; cases h
  | cons a t ih =>
    intro v h
    cases t with
    | nil =>
      obtain rfl : a = v := Option.some.inj h
      rfl
    | cons b t' =>
      rw [List.getLast?_cons_cons] at h
      show a :: ((b :: t').dropLast ++ [v]) = a :: b :: t'
      rw [ih v h]

theorem buildCards_isSome :
    ∀ (ps : List (Int × Int)) (vs : List String),
      (buildCards ps vs).isSome = true ↔ ps.length ≤ vs.length := by
  intro ps
  induction ps with
  | nil => intro vs; simp [buildCards]
  | cons p ps ih =>
    intro vs
    rw [buildCards]
    cases hv : vs.getLast? with
    | none =>
      cases vs with
      | nil => simp
      | cons a t =>
        exfalso
        rw [List.getLast?_eq_getLast (a :: t) (by simp)] at hv
        cases hv
    | some v =>
      have hne : vs ≠ [] := by
        intro hh
        subst hh
        cases hv
      have hlen : vs.dropLast.length = vs.length - 1 := List.length_dropLast vs
      have hpos : 0 < vs.length := List.length_pos.mpr hne
      have h2 := ih vs.dropLast
      rw [hlen] at h2
      cases hb : buildCards ps vs.dropLast <;> rw [hb] at h2 <;> simp at h2 ⊢ <;>
        omega

theorem buildCards_positions :
    ∀ (ps : List (Int × Int)) (vs : List String) (cs : List Card),
      buildCards ps vs = some cs → cs.map (fun c => (c.x, c.y)) = ps := by
  intro ps
  induction ps with
  | nil =>
    intro vs cs h
    obtain rfl : ([] : List Card) = cs := Option.some.inj h
    rfl
  | cons p ps ih =>
    intro vs cs h
    rw [buildCards] at h
    cases hv : vs.getLast? <;> rw [hv] at h
    · cases h
    · rename_i v
      cases hb : buildCards ps vs.dropLast <;> rw [hb] at h
      · cases h
      · rename_i cs'
        obtain rfl := Option.some.inj h
        show (p.1, p.2) :: cs'.map (fun c => (c.x, c.y)) = p :: ps
        rw [ih _ _ hb]

theorem buildCards_values_perm :
    ∀ (ps : List (Int × Int)) (vs : List String) (cs : List Card),
      buildCards ps vs = some cs → vs.length = ps.length →
      (cs.map (·.value)).Perm vs := by
  intro ps
  induction ps with
  | nil =>
    intro vs cs h hlen
    obtain rfl : ([] : List Card) = cs := Option.some.inj h
    rw [List.length_nil, List.length_eq_zero] at hlen
    rw [hlen]
    exact List.Perm.refl _
  | cons p ps ih =>
    intro vs cs h hlen
    rw [buildCards] at h
    cases hv : vs.getLast? <;> rw [hv] at h
    · cases h
    · rename_i v
      cases hb : buildCards ps vs.dropLast <;> rw [hb] at h
      · cases h
      · rename_i cs'
        obtain rfl := Option.some.inj h
        have hne : vs ≠ [] := by
          intro hh
          subst hh
          cases hv
        have hlen2 : vs.dropLast.length = ps.length := by
          rw [List.length_dropLast]
          rw [List.length_cons] at hlen
          omega
        have hperm := ih vs.dropLast cs' hb hlen2
        have hvs : vs.dropLast ++ [v] = vs := dropLast_append_of_getLast? vs v hv
        have h2 : (v :: vs.dropLast).Perm vs := by
          have h3 := (List.perm_append_singleton v vs.dropLast).symm
          rwa [hvs] at h3
        exact (hperm.cons v).trans h2

theorem filter_value_count (cs : List Card) (v : String) :
    (cs.filter (fun c => c.value == v)).length = (cs.map (·.value)).count v := by
  rw [List.count, List.countP_map, ← List.countP_eq_length_filter _ _]
  rfl

/-- Claim C9 counterexample: with a paired deck over nine symbols the tile
count (16) differs from twice the symbol count (18), so the claim demands
a `ConfigurationError`; the construction loop nevertheless succeeds (it
just pops 16 of the 18 shuffled values). -/
theorem c9_counterexample :
    (initialize_cards (NINE_VALUES ++ NINE_VALUES)).isSome = true ∧
    gridPositions.length ≠ 2 * NINE_VALUES.length := by decide

/-- Claim C9 (amended): construction performs no configuration check at
all — it succeeds exactly when the shuffled value list has at least as
many entries as there are grid cells — and for every shuffle of the
game's actual paired deck (`CARD_VALUES * 2`) it yields 16 cards with
exactly two cards per symbol, at pairwise distinct positions. -/
theorem c9_initialize_cards (vs ws : List String)
    (h : vs.Perm (CARD_VALUES ++ CARD_VALUES)) :
    ((initialize_cards ws).isSome = true ↔ gridPositions.length ≤ ws.length) ∧
    ∃ cs, initialize_cards vs = some cs ∧ cs.length = 16 ∧
      (∀ v ∈ CARD_VALUES, (cs.filter (fun c => c.value == v)).length = 2) ∧
      (cs.map fun c => (c.x, c.y)).Nodup := by
  refine ⟨buildCards_isSome gridPositions ws, ?_⟩
  have hlen : vs.length = 16 := by
    rw [h.length_eq]
    rfl
  have hsome : (initialize_cards vs).isSome = true :=
    (buildCards_isSome _ _).mpr (by rw [hlen]; decide)
  obtain ⟨cs, hcs⟩ := Option.isSome_iff_exists.mp hsome
  have hpos := buildCards_positions _ _ _ hcs
  refine ⟨cs, hcs, ?_, ?_, ?_⟩
  · have h1 : (cs.map fun c => (c.x, c.y)).length = gridPositions.length := by
      rw [hpos]
    rw [List.length_map] at h1
    rw [h1]
    decide
  · intro v hv
    have hperm : (cs.map (·.value)).Perm vs :=
      buildCards_values_perm _ _ _ hcs (by rw [hlen]; decide)
    rw [filter_value_count, hperm.count_eq, h.count_eq]
    fin_cases hv <;> decide
  · rw [hpos]
    decide

/-- Witness for C9 at the identity shuffle and the empty value list. -/
theorem c9_initialize_cards_witness :
    ((initialize_cards ([] : List String)).isSome = true
        ↔ gridPositions.length ≤ ([] : List String).length) ∧
    ∃ cs, initialize_cards (CARD_VALUES ++ CARD_VALUES) = some cs ∧
      cs.length = 16 ∧
      (∀ v ∈ CARD_VALUES, (cs.filter (fun c => c.value == v)).length = 2) ∧
      (cs.map fun c => (c.x, c.y)).Nodup :=
  c9_initialize_cards (CARD_VALUES ++ CARD_VALUES) [] (List.Perm.refl _)

/-! ## Claim C10: a loaded face-up unmatched tile is stuck forever -/

theorem flip_back_stuck {g : Game} {i : Nat}
    (hns1 : g.first_selection ≠ some i) (hns2 : g.second_selection ≠ some i) :
    g.flip_back_cards.cards.get? i = g.cards.get? i ∧
    g.flip_back_cards.first_selection ≠ some i ∧
    g.flip_back_cards.second_selection ≠ some i ∧
    g.flip_back_cards.victory = g.victory := by
  rw [Game.flip_back_cards]
  cases hh1 : g.first_selection with
  | none =>
    refine ⟨rfl, ?_, hns2, rfl⟩
    rw [hh1]
    simp
  | some j =>
    cases hh2 : g.second_selection with
    | none => exact ⟨rfl, hns1, hns2, rfl⟩
    | some k =>
      have hji : j ≠ i := fun hh => hns1 (by rw [hh1, hh])
      have hki : k ≠ i := fun hh => hns2 (by rw [hh2, hh])
      refine ⟨?_, by simp, by simp, rfl⟩
      show (if matchedAt (if matchedAt g.cards j then g.cards
              else modifyAt Card.flip g.cards j) k then
            (if matchedAt g.cards j then g.cards
              else modifyAt Card.flip g.cards j)
          else modifyAt Card.flip (if matchedAt g.cards j then g.cards
              else modifyAt Card.flip g.cards j) k).get? i
        = g.cards.get? i
      split_ifs
      · rfl
      · rw [get?_modifyAt_ne _ _ (Ne.symm hki)]
      · rw [get?_modifyAt_ne _ _ (Ne.symm hji)]
      · rw [get?_modifyAt_ne _ _ (Ne.symm hki),
          get?_modifyAt_ne _ _ (Ne.symm hji)]

theorem stuck_step {g : Game} {i : Nat} (e : Ev) (h : StuckP g i) :
    StuckP (g.step e) i ∧ (g.step e).victory = g.victory := by
  obtain ⟨⟨c, hgc, hcf, hcm⟩, hns1, hns2⟩ := h
  cases e with
  | tick =>
    show StuckP g.update i ∧ g.update.victory = g.victory
    by_cases hw0 : g.wait_time = 0
    · rw [update_no_wait hw0]
      exact ⟨⟨⟨c.update_animation, by rw [List.get?_map, hgc]; rfl,
        by rw [ua_is_flipped, hcf], by rw [ua_is_matched, hcm]⟩,
        hns1, hns2⟩, rfl⟩
    · by_cases hw1 : g.wait_time = 1
      · rw [update_wait_one hw1]
        obtain ⟨hq, hq1, hq2, hqv⟩ := flip_back_stuck
          (g := { g with cards := g.cards.map Card.update_animation,
                         wait_time := 0 })
          hns1 hns2
        refine ⟨⟨⟨c.update_animation, ?_, by rw [ua_is_flipped, hcf],
          by rw [ua_is_matched, hcm]⟩, hq1, hq2⟩, hqv⟩
        rw [hq]
        show (g.cards.map Card.update_animation).get? i
          = some c.update_animation
        rw [List.get?_map, hgc]
        rfl
      · have hw2 : 1 < g.wait_time := by omega
        rw [update_wait_pos hw2]
        exact ⟨⟨⟨c.update_animation, by rw [List.get?_map, hgc]; rfl,
          by rw [ua_is_flipped, hcf], by rw [ua_is_matched, hcm]⟩,
          hns1, hns2⟩, rfl⟩
  | click px py =>
    show StuckP (g.handle_click px py) i ∧
      (g.handle_click px py).victory = g.victory
    by_cases hguard : 0 < g.wait_time ∨ g.victory = true
    · rw [handle_click_guard px py hguard]
      exact ⟨⟨⟨c, hgc, hcf, hcm⟩, hns1, hns2⟩, rfl⟩
    · push_neg at hguard
      obtain ⟨hw', hv'⟩ := hguard
      have hw : g.wait_time = 0 := by omega
      have hv : g.victory = false := Bool.eq_false_iff.mpr hv'
      cases hfe : findEligible px py g.cards with
      | none =>
        rw [handle_click_nohit px py hw hv hfe]
        exact ⟨⟨⟨c, hgc, hcf, hcm⟩, hns1, hns2⟩, rfl⟩
      | some i2 =>
        obtain ⟨c2, hgi2, hel2⟩ := findEligible_some hfe
        obtain ⟨h2fl, h2m⟩ := eligible_flags hel2
        have hi2 : i2 ≠ i := by
          intro hh
          subst hh
          rw [hgc] at hgi2
          obtain rfl := Option.some.inj hgi2
          rw [hcf] at h2fl
          cases h2fl
        cases hf1 : g.first_selection with
        | none =>
          rw [handle_click_first hw hv hfe hf1]
          refine ⟨⟨⟨c, by rw [get?_modifyAt_ne _ _ (Ne.symm hi2)]; exact hgc,
            hcf, hcm⟩, ?_, hns2⟩, rfl⟩
          simp [hi2]
        | some j =>
          have hji : j ≠ i := fun hh => hns1 (by rw [hf1, hh])
          cases hf2 : g.second_selection with
          | some k =>
            rw [handle_click_both hw hv hfe hf1 hf2]
            exact ⟨⟨⟨c, hgc, hcf, hcm⟩, hns1, hns2⟩, rfl⟩
          | none =>
            by_cases hij2 : i2 = j
            · rw [handle_click_retap hw hv hfe hf1 hf2 hij2]
              exact ⟨⟨⟨c, hgc, hcf, hcm⟩, hns1, hns2⟩, rfl⟩
            · by_cases hval : valueAt (modifyAt Card.flip g.cards i2) j
                  = valueAt (modifyAt Card.flip g.cards i2) i2
              · rw [handle_click_match hw hv hfe hf1 hf2 hij2 hval]
                have hgetX : (setMatched (setMatched
                    (modifyAt Card.flip g.cards i2) j) i2).get? i = some c := by
                  rw [setMatched, setMatched, get?_modifyAt_ne _ _ (Ne.symm hi2),
                    get?_modifyAt_ne _ _ (Ne.symm hji)]
                  rw [get?_modifyAt_ne _ _ (Ne.symm hi2)]
                  exact hgc
                have hallX : ((setMatched (setMatched
                    (modifyAt Card.flip g.cards i2) j) i2).all
                    (·.is_matched)) = false := by
                  cases hA : ((setMatched (setMatched
                      (modifyAt Card.flip g.cards i2) j) i2).all
                      (·.is_matched)) with
                  | false => rfl
                  | true =>
                    have := List.all_eq_true.mp hA c (List.get?_mem hgetX)
                    rw [hcm] at this
                    cases this
                rw [check_victory_false hallX]
                refine ⟨⟨⟨c, hgetX, hcf, hcm⟩, by simp [Game.reset_selection],
                  by simp [Game.reset_selection]⟩, rfl⟩
              · rw [handle_click_mismatch hw hv hfe hf1 hf2 hij2 hval]
                have hgm : (modifyAt Card.flip g.cards i2).get? i = some c := by
                  rw [get?_modifyAt_ne _ _ (Ne.symm hi2)]
                  exact hgc
                refine ⟨⟨⟨c, hgm, hcf, hcm⟩, ?_, by simp [hi2]⟩, rfl⟩
                show g.first_selection ≠ some i
                exact hns1

theorem stuck_run {g : Game} {i : Nat} (evs : List Ev) (h : StuckP g i) :
    StuckP (g.run evs) i ∧ (g.run evs).victory = g.victory := by
  induction evs generalizing g with
  | nil => exact ⟨h, rfl⟩
  | cons e es ih =>
    obtain ⟨h1, h2⟩ := stuck_step e h
    obtain ⟨h3, h4⟩ := ih h1
    exact ⟨h3, h4.trans h2⟩

/-- Claim C10: when `load_game` accepts a record with a face-up unmatched
tile at index `i`, the loaded session has no picks and a zero countdown,
and no sequence of clicks and ticks ever changes that tile's visibility —
it stays face up and unmatched — nor can the session's `victory` flag
ever become true if it was loaded false. -/
theorem c10_stuck_tile (sd : SaveData) (g : Game) (i : Nat) (c : Card)
    (h1 : load_game sd = some g) (h2 : g.cards.get? i = some c)
    (hf : c.is_flipped = true) (hm : c.is_matched = false) :
    g.first_selection = none ∧ g.second_selection = none ∧ g.wait_time = 0 ∧
    ∀ evs : List Ev,
      (∃ c', (g.run evs).cards.get? i = some c' ∧
        c'.is_flipped = true ∧ c'.is_matched = false) ∧
      (g.victory = false → (g.run evs).victory = false) := by
  have hload : g.first_selection = none ∧ g.second_selection = none ∧
      g.wait_time = 0 := by
    rcases sd with ⟨m, v, cds⟩
    cases m <;> cases v <;> cases cds <;> simp [load_game] at h1
    rename_i cds
    cases hlc : loadCards cds <;> rw [hlc] at h1
    · cases h1
    · obtain rfl := Option.some.inj h1
      exact ⟨rfl, rfl, rfl⟩
  obtain ⟨hfn, hsn, hwz⟩ := hload
  have hP : StuckP g i :=
    ⟨⟨c, h2, hf, hm⟩, by rw [hfn]; simp, by rw [hsn]; simp⟩
  refine ⟨hfn, hsn, hwz, ?_⟩
  intro evs
  obtain ⟨⟨⟨c', hc', hcf', hcm'⟩, hx1, hx2⟩, hvq⟩ := stuck_run evs hP
  exact ⟨⟨c', hc', hcf', hcm'⟩, fun hvf => by rw [hvq, hvf]⟩

/-- Witness for C10: the two-tile record `sdEx` whose first tile is
face up and unmatched, run for one tick and one click. -/
theorem c10_stuck_tile_witness :
    gLoadedEx.first_selection = none ∧ gLoadedEx.second_selection = none ∧
    gLoadedEx.wait_time = 0 ∧
    ∀ evs : List Ev,
      (∃ c', (gLoadedEx.run evs).cards.get? 0 = some c' ∧
        c'.is_flipped = true ∧ c'.is_matched = false) ∧
      (gLoadedEx.victory = false → (gLoadedEx.run evs).victory = false) :=
  c10_stuck_tile sdEx gLoadedEx 0
    (Card.mk 105 25 "1" true false CARD_SIZE)
    (by decide) (by decide) (by decide) (by decide)
